import Mathlib

/-!
# commenturi: URI identity resolver and comment store gateway

A shallow embedding of `src/main.go`.  Go strings are byte sequences, Go `int`
is a signed 64-bit integer, the relational table is a list of rows.
-/

namespace Commenturi

/-- One byte of a Go string. -/
abbrev Byte := Fin 256

/-- Go `string`: an arbitrary finite byte sequence. -/
abbrev GoString := List Byte

/-- Errors of Go's `encoding/hex`: `hex.InvalidByteError(b)` and `hex.ErrLength`. -/
inductive HexError where
  | InvalidByteError (b : Byte)
  | ErrLength
  deriving DecidableEq, Repr

/-- The table `hextable = "0123456789abcdef"` of `encoding/hex`, as bytes. -/
def hextable : List Byte :=
  [48, 49, 50, 51, 52, 53, 54, 55, 56, 57, 97, 98, 99, 100, 101, 102]

/-- Body of `hex.Encode`: each byte `v` becomes `hextable[v>>4]`, `hextable[v&0x0f]`. -/
def hexEncode : List Byte → List Byte
  | [] => []
  | v :: rest =>
    hextable.getD (v.val >>> 4) 0 :: hextable.getD (v.val &&& 0x0f) 0 :: hexEncode rest

/-- The table `reverseHexTable` of `encoding/hex`: the value of a hexadecimal
digit (`0-9`, `a-f`, `A-F`), and `0xff` for every other byte. -/
def reverseHexTable (c : Byte) : Nat :=
  if 48 ≤ c.val ∧ c.val ≤ 57 then c.val - 48
  else if 97 ≤ c.val ∧ c.val ≤ 102 then c.val - 97 + 10
  else if 65 ≤ c.val ∧ c.val ≤ 70 then c.val - 65 + 10
  else 0xff

/-- Go `hex.Decode` as used by `hex.DecodeString`: the bytes decoded before the
first error, and the error if any.  Pairs are read left to right; a lone last
character is checked for validity before the length error is reported. -/
def hexDecode : List Byte → List Byte × Option HexError
  | [] => ([], none)
  | [p] =>
    if reverseHexTable p > 0x0f then ([], some (HexError.InvalidByteError p))
    else ([], some HexError.ErrLength)
  | p :: q :: rest =>
    let a := reverseHexTable p
    let b := reverseHexTable q
    if a > 0x0f then ([], some (HexError.InvalidByteError p))
    else if b > 0x0f then ([], some (HexError.InvalidByteError q))
    else
      let r := hexDecode rest
      (Fin.ofNat ((a <<< 4) ||| b) :: r.1, r.2)

/-- Source `EncodeHex` (main.go 83-85): `hex.EncodeToString([]byte(s))`. -/
def EncodeHex (s : GoString) : GoString := hexEncode s

/-- Source `DecodeHex` (main.go 87-93): on error the empty string and the error,
otherwise the decoded bytes and `nil`. -/
def DecodeHex (hexStr : GoString) : GoString × Option HexError :=
  match hexDecode hexStr with
  | (_, some err) => ([], some err)
  | (bytes, none) => (bytes, none)

/-- Source `GetURI` (main.go 95-110). -/
def GetURI (uri : GoString) (uriEncoded : GoString) (getEncoded : Bool) : GoString :=
  if getEncoded then
    if uriEncoded ≠ [] then uriEncoded
    else EncodeHex uri
  else if uri ≠ [] then uri
  else
    match DecodeHex uriEncoded with
    | (_, some _) => []
    | (s, none) => s

/-- A byte is a hexadecimal digit: `0-9`, `a-f` or `A-F`. -/
def isHexDigit (c : Byte) : Prop :=
  (48 ≤ c.val ∧ c.val ≤ 57) ∨ (97 ≤ c.val ∧ c.val ≤ 102) ∨ (65 ≤ c.val ∧ c.val ≤ 70)

instance (c : Byte) : Decidable (isHexDigit c) := by
  unfold isHexDigit; infer_instance

/-- A token is malformed when its length is odd or some character is not a
hexadecimal digit. -/
def malformed (m : GoString) : Prop :=
  m.length % 2 = 1 ∨ ∃ c ∈ m, ¬ isHexDigit c

instance (m : GoString) : Decidable (malformed m) := by
  unfold malformed; infer_instance

/-- A byte is one of the digits `hex.Encode` writes: `0-9` or `a-f`. -/
def isLowerHexDigit (c : Byte) : Prop :=
  (48 ≤ c.val ∧ c.val ≤ 57) ∨ (97 ≤ c.val ∧ c.val ≤ 102)

instance (c : Byte) : Decidable (isLowerHexDigit c) := by
  unfold isLowerHexDigit; infer_instance

/-- A token is canonical when its length is even and every character is one of
`0-9`, `a-f`. -/
def canonicalHex (m : GoString) : Prop :=
  m.length % 2 = 0 ∧ ∀ c ∈ m, isLowerHexDigit c

instance (m : GoString) : Decidable (canonicalHex m) := by
  unfold canonicalHex; infer_instance

/-- ASCII text as a Go string. -/
def ascii (s : String) : GoString := s.toList.map (fun c => Fin.ofNat c.toNat)

/-! ## Go `strconv.Atoi` -/

/-- Errors of Go's `strconv`: `ErrSyntax` and `ErrRange`. -/
inductive NumError where
  | ErrSyntax
  | ErrRange
  deriving DecidableEq, Repr

/-- Largest `uint64`. -/
def maxUint64 : Nat := 2 ^ 64 - 1

/-- Digit loop of Go `strconv.ParseUint(s, 10, 64)` with accumulator `n`: a
byte that is not a decimal digit is a syntax error with value 0; overflow is a
range error with value `maxUint64`, reported as soon as it is met. -/
def parseUintLoop : List Byte → Nat → Nat × Option NumError
  | [], n => (n, none)
  | c :: rest, n =>
    if 48 ≤ c.val ∧ c.val ≤ 57 then
      let d := c.val - 48
      if n ≥ maxUint64 / 10 + 1 then (maxUint64, some NumError.ErrRange)
      else
        let n10 := n * 10
        let n1 := (n10 + d) % 2 ^ 64
        if n1 < n10 ∨ n1 > maxUint64 then (maxUint64, some NumError.ErrRange)
        else parseUintLoop rest n1
    else (0, some NumError.ErrSyntax)

/-- Go `strconv.ParseUint(s, 10, 64)`. -/
def ParseUint (s : GoString) : Nat × Option NumError :=
  if s = [] then (0, some NumError.ErrSyntax) else parseUintLoop s 0

/-- Go `strconv.ParseInt(s, 10, 0)` with 64-bit `int`: optional sign, then
`ParseUint`; a syntax error gives 0, a value out of range gives the nearest
bound `2^63 - 1` or `-2^63` together with a range error. -/
def ParseInt (s : GoString) : Int × Option NumError :=
  if s = [] then (0, some NumError.ErrSyntax)
  else
    let neg := s.head? = some 45
    let body := if s.head? = some 43 ∨ s.head? = some 45 then s.tail else s
    match ParseUint body with
    | (_, some NumError.ErrSyntax) => (0, some NumError.ErrSyntax)
    | (un, _) =>
      let cutoff : Nat := 2 ^ 63
      if ¬ neg ∧ un ≥ cutoff then ((cutoff : Int) - 1, some NumError.ErrRange)
      else if neg ∧ un > cutoff then (-(cutoff : Int), some NumError.ErrRange)
      else (if neg then -(un : Int) else (un : Int), none)

/-- Digit loop of the fast path of Go `strconv.Atoi`: `none` on a byte that is
not a decimal digit. -/
def atoiFastLoop : List Byte → Int → Option Int
  | [], n => some n
  | ch :: rest, n =>
    let d := (ch.val + 256 - 48) % 256
    if d > 9 then none else atoiFastLoop rest (n * 10 + (d : Int))

/-- Go `strconv.Atoi` with 64-bit `int`: strings of 1 to 18 bytes take the fast
path, every other string goes through `ParseInt`. -/
def Atoi (s : GoString) : Int × Option NumError :=
  if 0 < s.length ∧ s.length < 19 then
    let signed := s.head? = some 45 ∨ s.head? = some 43
    let body := if signed then s.tail else s
    if signed ∧ body.length < 1 then (0, some NumError.ErrSyntax)
    else
      match atoiFastLoop body 0 with
      | none => (0, some NumError.ErrSyntax)
      | some n => (if s.head? = some 45 then -n else n, none)
  else ParseInt s

/-- Go `int` arithmetic on a 64-bit platform: the result of an operation is the
mathematical result wrapped into `[-2^63, 2^63)`. -/
def wrapInt64 (x : Int) : Int := (x + 2 ^ 63) % 2 ^ 64 - 2 ^ 63

/-! ## Data model (main.go 16-44) -/

/-- Source `Comment` (main.go 16-25).  The embedded `gorm.Model` (ID and the
created/updated/deleted timestamps) is bookkeeping filled in by the store; the
program never reads or writes it and never deletes a row, so it is left out.
`InsertedAt` is an instant on the time line. -/
structure Comment where
  URI : GoString
  URIEncoded : GoString
  Nickname : GoString
  Email : GoString
  Title : GoString
  Content : GoString
  InsertedAt : Int
  deriving DecidableEq, Repr

/-- Source `CommentRequest` (main.go 27-34). -/
structure CommentRequest where
  URI : GoString
  URIEncoded : GoString
  Nickname : GoString
  Email : GoString
  Title : GoString
  Content : GoString
  deriving DecidableEq, Repr

/-- Source `PaginatedResponse` (main.go 36-40). -/
structure PaginatedResponse where
  Comments : List Comment
  Page : Int
  PageSize : Int
  deriving DecidableEq, Repr

/-- What a handler writes after the status line: nothing, an `ErrorResponse`
(main.go 42-44), a `Comment`, or a `PaginatedResponse`. -/
inductive Body where
  | empty
  | error (Error : String)
  | comment (c : Comment)
  | page (p : PaginatedResponse)
  deriving DecidableEq, Repr

/-- HTTP response: status code and JSON body. -/
structure Response where
  status : Nat
  body : Body
  deriving DecidableEq, Repr

/-- The values `r.URL.Query().Get(..)` returns for the four parameters the
handlers read; an absent parameter is the empty string. -/
structure Query where
  uri : GoString
  uri_encoded : GoString
  page : GoString
  page_size : GoString
  deriving DecidableEq, Repr

/-- The error message of a response, if its body is an `ErrorResponse`. -/
def Response.errorMessage (r : Response) : Option String :=
  match r.body with
  | Body.error m => some m
  | _ => none

/-! ## The store -/

/-- The statement the read path builds with gorm (main.go 128):
`Where("uri_encoded = ?", key).Limit(limit).Offset(offset).Order("inserted_at DESC")`. -/
structure FindQuery where
  key : GoString
  limit : Int
  offset : Int
  deriving DecidableEq, Repr

/-- Rows of the table matching the statement: the rows whose `uri_encoded` is
the key, newest `inserted_at` first, then `OFFSET` and `LIMIT`.  As in gorm, an
offset that is not positive skips nothing and a negative limit keeps all rows.
The condition `deleted_at IS NULL` gorm adds holds for every row, since the
program never deletes one. -/
def Find (rows : List Comment) (q : FindQuery) : List Comment :=
  let matching := rows.filter (fun c => c.URIEncoded = q.key)
  let ordered := matching.insertionSort (fun a b => a.InsertedAt ≥ b.InsertedAt)
  let skipped := if q.offset > 0 then ordered.drop q.offset.toNat else ordered
  if q.limit ≥ 0 then skipped.take q.limit.toNat else skipped

/-- The comments of the table whose `uri_encoded` equals `k`, sorted by
`inserted_at` descending: the list the read path pages through. -/
def newestFirst (rows : List Comment) (k : GoString) : List Comment :=
  (rows.filter (fun c => c.URIEncoded = k)).insertionSort
    (fun a b => a.InsertedAt ≥ b.InsertedAt)

instance newerTotal : IsTotal Comment (fun a b => a.InsertedAt ≥ b.InsertedAt) :=
  ⟨fun a b => le_total b.InsertedAt a.InsertedAt⟩

instance newerTrans : IsTrans Comment (fun a b => a.InsertedAt ≥ b.InsertedAt) :=
  ⟨fun _ _ _ h1 h2 => le_trans h2 h1⟩

instance strictlyNewerAntisymm : IsAntisymm Comment (fun a b => a.InsertedAt > b.InsertedAt) :=
  ⟨fun _ _ h1 h2 => absurd h1 (not_lt.mpr (le_of_lt h2))⟩

/-- A comment on the page `/blog/1` inserted at instant `t`. -/
def commentAt (t : Int) : Comment :=
  { URI := ascii "/blog/1", URIEncoded := EncodeHex (ascii "/blog/1"), Nickname := ascii "a",
    Email := ascii "a@x.com", Title := [], Content := ascii "hi", InsertedAt := t }

/-! ## Handlers -/

/-- Lines 119-121 of `handleGetComments`: the page number after defaulting,
from the value `strconv.Atoi` returned. -/
def handleGetComments_page (page : Int) : Int :=
  if page < 1 then 1 else page

/-- Lines 124-126 of `handleGetComments`: the page size after defaulting, from
the value `strconv.Atoi` returned. -/
def handleGetComments_pageSize (pageSize : Int) : Int :=
  if pageSize < 1 ∨ pageSize > 100 then 10 else pageSize

/-- The expression `(page-1) * pageSize` of line 128 in Go `int` arithmetic. -/
def handleGetComments_offset (page pageSize : Int) : Int :=
  wrapInt64 (wrapInt64 (page - 1) * pageSize)

/-- Lines 116-128 of `handleGetComments`: the statement sent to the store. -/
def handleGetComments_query (q : Query) : FindQuery :=
  let uriEncoded := GetURI q.uri q.uri_encoded true
  let page := handleGetComments_page (Atoi q.page).1
  let pageSize := handleGetComments_pageSize (Atoi q.page_size).1
  { key := uriEncoded, limit := pageSize, offset := handleGetComments_offset page pageSize }

/-- Source `handleGetComments` (main.go 112-144) over the table `rows`;
`findErr` says whether the store reports an error for the statement. -/
def handleGetComments (rows : List Comment) (findErr : Bool) (q : Query) : Response :=
  let page := handleGetComments_page (Atoi q.page).1
  let pageSize := handleGetComments_pageSize (Atoi q.page_size).1
  if findErr then { status := 404, body := Body.empty }
  else
    let paginatedComments := Find rows (handleGetComments_query q)
    { status := 200,
      body := Body.page { Comments := paginatedComments, Page := page, PageSize := pageSize } }

/-! ## The JSON body of a submission -/

/-- The fields of `CommentRequest`, by their JSON names (main.go 27-34). -/
inductive RequestField where
  | uri
  | uri_encoded
  | nickname
  | email
  | title
  | content
  deriving DecidableEq, Repr

/-- A JSON value as `encoding/json` sees it when the target is a Go `string`:
`null`, a boolean, a number (by its literal text), a string (by its decoded
bytes), or an array or object. -/
inductive JSONValue where
  | null
  | bool (b : Bool)
  | number (literal : GoString)
  | string (s : GoString)
  | compound
  deriving DecidableEq, Repr

/-- The request body as `json.NewDecoder(r.Body).Decode` reads it: not a JSON
value at all (empty, or a syntax error), the value `null`, a boolean, number,
string or array, or an object.  Each member of an object is given with the
field of `CommentRequest` its key names (`none` for a key that names no
field, which the decoder skips), in the order of the text. -/
inductive JSONBody where
  | malformed
  | null
  | scalarOrArray
  | object (members : List (Option RequestField × JSONValue))
  deriving DecidableEq, Repr

/-- Assignment to one field of a `CommentRequest`. -/
def CommentRequest.set (req : CommentRequest) (f : RequestField) (s : GoString) :
    CommentRequest :=
  match f with
  | RequestField.uri => { req with URI := s }
  | RequestField.uri_encoded => { req with URIEncoded := s }
  | RequestField.nickname => { req with Nickname := s }
  | RequestField.email => { req with Email := s }
  | RequestField.title => { req with Title := s }
  | RequestField.content => { req with Content := s }

/-- Go `encoding/json` filling a struct of `string` fields from the members of
an object, in order: `null` leaves the field as it is, a string is assigned, a
later member for the same field overrides an earlier one, and any other value
for a field is an `UnmarshalTypeError`, which `Decode` returns (`none`). -/
def decodeMembers : List (Option RequestField × JSONValue) → CommentRequest →
    Option CommentRequest
  | [], req => some req
  | (none, _) :: rest, req => decodeMembers rest req
  | (some _, JSONValue.null) :: rest, req => decodeMembers rest req
  | (some f, JSONValue.string s) :: rest, req => decodeMembers rest (req.set f s)
  | (some _, JSONValue.bool _) :: _, _ => none
  | (some _, JSONValue.number _) :: _, _ => none
  | (some _, JSONValue.compound) :: _, _ => none

/-- Lines 150-152 of `handlePostComment`: `json.NewDecoder(r.Body).Decode(&req)`
into the zero `CommentRequest`; `none` when `Decode` returns an error. -/
def decodeCommentRequest : JSONBody → Option CommentRequest
  | JSONBody.malformed => none
  | JSONBody.null =>
    some { URI := [], URIEncoded := [], Nickname := [], Email := [], Title := [], Content := [] }
  | JSONBody.scalarOrArray => none
  | JSONBody.object members =>
    decodeMembers members
      { URI := [], URIEncoded := [], Nickname := [], Email := [], Title := [], Content := [] }

/-- A value that cannot be decoded into a Go `string`: neither a JSON string
nor `null`. -/
def JSONValue.notString (v : JSONValue) : Prop :=
  match v with
  | JSONValue.null => False
  | JSONValue.string _ => False
  | _ => True

instance (v : JSONValue) : Decidable v.notString := by
  unfold JSONValue.notString; cases v <;> infer_instance

/-- Source `handlePostComment` (main.go 146-204) over the table `rows`: the
response and the table afterwards.  `body` is the decoded JSON body (`none`
when decoding fails; `decodeCommentRequest` computes it from the body),
`now` is `time.Now()`, `createErr` says whether the store reports an error for
the insert. -/
def handlePostComment (rows : List Comment) (createErr : Bool) (now : Int)
    (body : Option CommentRequest) (q : Query) : Response × List Comment :=
  match body with
  | none => ({ status := 400, body := Body.error "Invalid JSON" }, rows)
  | some req0 =>
    let req := { req0 with URI := q.uri, URIEncoded := q.uri_encoded }
    if req.URI = [] ∧ req.URIEncoded = [] then
      ({ status := 400, body := Body.error "uri or uri_encoded is required" }, rows)
    else if req.Nickname = [] then
      ({ status := 400, body := Body.error "Nickname is required" }, rows)
    else if req.Email = [] then
      ({ status := 400, body := Body.error "Email is required" }, rows)
    else if req.Content = [] then
      ({ status := 400, body := Body.error "Content is required" }, rows)
    else
      let comment : Comment :=
        { URI := GetURI req.URI req.URIEncoded false,
          URIEncoded := GetURI req.URI req.URIEncoded true,
          Nickname := req.Nickname,
          Email := req.Email,
          Title := req.Title,
          Content := req.Content,
          InsertedAt := now }
      if createErr then
        ({ status := 400, body := Body.error "Failed to create comment" }, rows)
      else ({ status := 201, body := Body.comment comment }, rows ++ [comment])

/-! ## The library models on concrete inputs -/

theorem EncodeHex_blog :
    EncodeHex (ascii "/blog/1") = ascii "2f626c6f672f31" := by
  decide

theorem DecodeHex_upper :
    DecodeHex (ascii "2F626c6f672f31") = (ascii "/blog/1", none) := by
  decide

theorem DecodeHex_odd :
    DecodeHex (ascii "2f6") = ([], some HexError.ErrLength) := by
  decide

theorem DecodeHex_invalid :
    DecodeHex (ascii "2g") = ([], some (HexError.InvalidByteError 103)) := by
  decide

theorem Atoi_minus_one :
    Atoi (ascii "-1") = (-1, none) := by
  decide

theorem Atoi_empty :
    Atoi (ascii "") = (0, some NumError.ErrSyntax) := by
  decide

theorem Atoi_101 :
    Atoi (ascii "101") = (101, none) := by
  decide

theorem Atoi_large :
    Atoi (ascii "4611686018427387905") = (4611686018427387905, none) := by
  decide

theorem Atoi_overflow :
    Atoi (ascii "99999999999999999999x") = (9223372036854775807, some NumError.ErrRange) := by
  decide

theorem Atoi_underflow :
    Atoi (ascii "-9223372036854775809") = (-9223372036854775808, some NumError.ErrRange) := by
  decide

theorem Atoi_syntax :
    Atoi (ascii "12a") = (0, some NumError.ErrSyntax) := by
  decide

/-! ## Hexadecimal encoding -/

set_option maxRecDepth 1000000 in
/-- Decoding the two characters `hex.Encode` writes for a byte gives the byte back. -/
theorem hex_pair_roundtrip : ∀ v : Byte,
    reverseHexTable (hextable.getD (v.val >>> 4) 0) ≤ 0x0f ∧
    reverseHexTable (hextable.getD (v.val &&& 0x0f) 0) ≤ 0x0f ∧
    (Fin.ofNat ((reverseHexTable (hextable.getD (v.val >>> 4) 0) <<< 4) |||
      reverseHexTable (hextable.getD (v.val &&& 0x0f) 0)) : Byte) = v := by
  decide

theorem hexDecode_hexEncode (s : List Byte) : hexDecode (hexEncode s) = (s, none) := by
  induction s with
  | nil => rfl
  | cons v rest ih =>
    obtain ⟨h1, h2, h3⟩ := hex_pair_roundtrip v
    simp only [hexEncode, hexDecode, ih]
    rw [if_neg (by omega), if_neg (by omega), h3]

theorem DecodeHex_EncodeHex (s : GoString) : DecodeHex (EncodeHex s) = (s, none) := by
  simp [DecodeHex, EncodeHex, hexDecode_hexEncode]

set_option maxRecDepth 1000000 in
theorem reverseHexTable_le_iff : ∀ c : Byte, reverseHexTable c ≤ 0x0f ↔ isHexDigit c := by
  decide

/-- Induction over a byte string two bytes at a time. -/
theorem pair_induction {P : List Byte → Prop} (h0 : P []) (h1 : ∀ p, P [p])
    (h2 : ∀ p q rest, P rest → P (p :: q :: rest)) : ∀ m, P m := by
  have key : ∀ n, ∀ m : List Byte, m.length ≤ n → P m := by
    intro n
    induction n with
    | zero =>
      intro m hm
      have : m = [] := List.length_eq_zero.mp (by omega)
      subst this; exact h0
    | succ n ih =>
      intro m hm
      match m, hm with
      | [], _ => exact h0
      | [p], _ => exact h1 p
      | p :: q :: rest, hm =>
        apply h2
        apply ih
        simp only [List.length_cons] at hm
        omega
  intro m
  exact key m.length m le_rfl

theorem hexDecode_error_iff (m : List Byte) : (hexDecode m).2 ≠ none ↔ malformed m := by
  induction m using pair_induction with
  | h0 => simp [hexDecode, malformed]
  | h1 p =>
    by_cases h : reverseHexTable p > 0x0f <;> simp [hexDecode, h, malformed]
  | h2 p q rest ih =>
    have hp := reverseHexTable_le_iff p
    have hq := reverseHexTable_le_iff q
    have hlen : (p :: q :: rest).length % 2 = rest.length % 2 := by
      simp only [List.length_cons]; omega
    unfold malformed at ih ⊢
    rw [hlen]
    simp only [hexDecode]
    by_cases h1 : reverseHexTable p > 0x0f
    · have : ¬ isHexDigit p := by rw [← hp]; omega
      simp only [h1, if_true]
      simp
      right; left; exact this
    · by_cases h2 : reverseHexTable q > 0x0f
      · have : ¬ isHexDigit q := by rw [← hq]; omega
        simp only [h1, h2, if_true, if_false]
        simp
        right; right; left; exact this
      · have h1' : isHexDigit p := by rw [← hp]; omega
        have h2' : isHexDigit q := by rw [← hq]; omega
        simp only [h1, h2, if_false]
        rw [ih]
        simp [h1', h2']

theorem DecodeHex_snd (m : GoString) : (DecodeHex m).2 = (hexDecode m).2 := by
  unfold DecodeHex
  rcases h : hexDecode m with ⟨bs, _ | e⟩ <;> rfl

theorem DecodeHex_error_iff (m : GoString) : (DecodeHex m).2 ≠ none ↔ malformed m := by
  rw [DecodeHex_snd]; exact hexDecode_error_iff m

theorem DecodeHex_fst_of_error (m : GoString) (h : (DecodeHex m).2 ≠ none) :
    (DecodeHex m).1 = [] := by
  unfold DecodeHex at h ⊢
  rcases hd : hexDecode m with ⟨bs, _ | e⟩
  · rw [hd] at h; exact absurd rfl h
  · rfl

theorem DecodeHex_fst_of_ok (m : GoString) (h : (DecodeHex m).2 = none) :
    (DecodeHex m).1 = (hexDecode m).1 := by
  unfold DecodeHex at h ⊢
  rcases hd : hexDecode m with ⟨bs, _ | e⟩
  · rfl
  · rw [hd] at h; exact absurd h (by simp)

theorem GetURI_decode (m : GoString) : GetURI [] m false = (DecodeHex m).1 := by
  unfold GetURI
  simp only [Bool.false_eq_true, if_false, ne_eq, not_true_eq_false]
  rcases hd : DecodeHex m with ⟨bs, _ | e⟩
  · rfl
  · have := DecodeHex_fst_of_error m (by rw [hd]; simp)
    rw [hd] at this
    simpa using this.symm

/-- C1: for every byte string `T`, `DecodeHex (EncodeHex T)` is `T` with no
error, and resolving the encoded form of `T` and then the raw form of that
result gives `T` back. -/
theorem C1_roundtrip (T : GoString) :
    DecodeHex (EncodeHex T) = (T, none) ∧
    GetURI [] (GetURI T [] true) false = T := by
  refine ⟨DecodeHex_EncodeHex T, ?_⟩
  have h : GetURI T [] true = EncodeHex T := by simp [GetURI]
  rw [h, GetURI_decode, DecodeHex_EncodeHex]

/-- C2: `DecodeHex M` reports an error exactly when `M` is malformed (odd
length, or a character that is not a hexadecimal digit), the string returned
with an error is empty, and for malformed `M` the resolver returns the empty
string. -/
theorem C2_decode_error_iff_malformed (M : GoString) :
    ((DecodeHex M).2 ≠ none ↔ malformed M) ∧
    ((DecodeHex M).2 ≠ none → (DecodeHex M).1 = []) ∧
    (malformed M → GetURI [] M false = []) := by
  have hiff : (DecodeHex M).2 ≠ none ↔ malformed M := by
    rw [DecodeHex_snd]; exact hexDecode_error_iff M
  refine ⟨hiff, DecodeHex_fst_of_error M, fun hm => ?_⟩
  rw [GetURI_decode]
  exact DecodeHex_fst_of_error M (hiff.mpr hm)

/-- Witness of C2 at the malformed token `2g`. -/
theorem C2_decode_error_iff_malformed_witness :
    malformed (ascii "2g") ∧ (DecodeHex (ascii "2g")).2 ≠ none ∧
    (DecodeHex (ascii "2g")).1 = [] ∧ GetURI [] (ascii "2g") false = [] :=
  have h := C2_decode_error_iff_malformed (ascii "2g")
  ⟨by decide, h.1.mpr (by decide), h.2.1 (h.1.mpr (by decide)), h.2.2 (by decide)⟩

/-- C3: `GetURI raw encoded true` is `encoded` when that is non-empty and
`EncodeHex raw` otherwise; `GetURI raw encoded false` is `raw` when that is
non-empty, otherwise the decoding of `encoded` when `DecodeHex` succeeds,
otherwise the empty string; with both inputs empty the result is empty. -/
theorem C3_GetURI_cases (raw encoded : GoString) :
    GetURI raw encoded true = (if encoded ≠ [] then encoded else EncodeHex raw) ∧
    GetURI raw encoded false =
      (if raw ≠ [] then raw
       else if (DecodeHex encoded).2 = none then (DecodeHex encoded).1 else []) ∧
    (∀ b : Bool, GetURI [] [] b = []) := by
  refine ⟨by simp [GetURI], ?_, ?_⟩
  · by_cases hr : raw = []
    · subst hr
      rw [GetURI_decode]
      by_cases he : (DecodeHex encoded).2 = none
      · simp [he]
      · simp [he, DecodeHex_fst_of_error encoded he]
    · simp [GetURI, hr]
  · intro b
    cases b <;> decide

/-! ## Write path -/

/-- The row `handlePostComment` builds from a request and the query (main.go 184-192). -/
theorem handlePostComment_accept (rows : List Comment) (now : Int) (req : CommentRequest)
    (q : Query) (hq : ¬ (q.uri = [] ∧ q.uri_encoded = [])) (hn : req.Nickname ≠ [])
    (he : req.Email ≠ []) (hc : req.Content ≠ []) :
    handlePostComment rows false now (some req) q =
      ({ status := 201,
         body := Body.comment
           { URI := GetURI q.uri q.uri_encoded false,
             URIEncoded := GetURI q.uri q.uri_encoded true,
             Nickname := req.Nickname, Email := req.Email, Title := req.Title,
             Content := req.Content, InsertedAt := now } },
       rows ++ [{ URI := GetURI q.uri q.uri_encoded false,
                  URIEncoded := GetURI q.uri q.uri_encoded true,
                  Nickname := req.Nickname, Email := req.Email, Title := req.Title,
                  Content := req.Content, InsertedAt := now }]) := by
  simp only [handlePostComment]
  rw [if_neg hq, if_neg hn, if_neg he, if_neg hc]
  simp

/-- C4: a decoded submission is rejected by validation exactly when the query
supplies neither `uri` nor `uri_encoded`, or nickname, email or content is
empty; the message is that of the first failing check in the order uri,
nickname, email, content; the title changes neither status nor message. -/
theorem C4_validation (rows : List Comment) (createErr : Bool) (now : Int)
    (req : CommentRequest) (q : Query) :
    ((((handlePostComment rows createErr now (some req) q).1.status = 400 ∧
        ∃ m ∈ ["uri or uri_encoded is required", "Nickname is required",
                "Email is required", "Content is required"],
          (handlePostComment rows createErr now (some req) q).1.body = Body.error m)) ↔
      ((q.uri = [] ∧ q.uri_encoded = []) ∨ req.Nickname = [] ∨ req.Email = [] ∨
        req.Content = [])) ∧
    ((q.uri = [] ∧ q.uri_encoded = []) →
      (handlePostComment rows createErr now (some req) q).1 =
        { status := 400, body := Body.error "uri or uri_encoded is required" }) ∧
    (¬ (q.uri = [] ∧ q.uri_encoded = []) → req.Nickname = [] →
      (handlePostComment rows createErr now (some req) q).1 =
        { status := 400, body := Body.error "Nickname is required" }) ∧
    (¬ (q.uri = [] ∧ q.uri_encoded = []) → req.Nickname ≠ [] → req.Email = [] →
      (handlePostComment rows createErr now (some req) q).1 =
        { status := 400, body := Body.error "Email is required" }) ∧
    (¬ (q.uri = [] ∧ q.uri_encoded = []) → req.Nickname ≠ [] → req.Email ≠ [] →
      req.Content = [] →
      (handlePostComment rows createErr now (some req) q).1 =
        { status := 400, body := Body.error "Content is required" }) ∧
    (∀ t : GoString,
      (handlePostComment rows createErr now (some { req with Title := t }) q).1.status =
        (handlePostComment rows createErr now (some req) q).1.status ∧
      (handlePostComment rows createErr now (some { req with Title := t }) q).1.errorMessage =
        (handlePostComment rows createErr now (some req) q).1.errorMessage) := by
  by_cases hq : q.uri = [] ∧ q.uri_encoded = []
  · simp [handlePostComment, hq, Response.errorMessage]
  · by_cases hn : req.Nickname = []
    · simp [handlePostComment, hq, hn, Response.errorMessage]
    · by_cases he : req.Email = []
      · simp [handlePostComment, hq, hn, he, Response.errorMessage]
      · by_cases hc : req.Content = []
        · simp [handlePostComment, hq, hn, he, hc, Response.errorMessage]
        · cases createErr <;>
            simp [handlePostComment, hq, hn, he, hc, Response.errorMessage]

/-- Witness of C4: a submission for `/blog/1` with an empty nickname. -/
theorem C4_validation_witness :
    (handlePostComment [] false 7
        (some { URI := [], URIEncoded := [], Nickname := [], Email := ascii "a@x.com",
                Title := [], Content := ascii "hi" })
        { uri := ascii "/blog/1", uri_encoded := [], page := [], page_size := [] }).1 =
      { status := 400, body := Body.error "Nickname is required" } :=
  (C4_validation [] false 7
      { URI := [], URIEncoded := [], Nickname := [], Email := ascii "a@x.com",
        Title := [], Content := ascii "hi" }
      { uri := ascii "/blog/1", uri_encoded := [], page := [], page_size := [] }).2.2.1
    (by decide) rfl

theorem decodeMembers_type_error (members : List (Option RequestField × JSONValue))
    (f : RequestField) (v : JSONValue) (hv : v.notString) (hmem : (some f, v) ∈ members) :
    ∀ req : CommentRequest, decodeMembers members req = none := by
  induction members with
  | nil => exact absurd hmem (by simp)
  | cons m rest ih =>
    intro req
    rcases List.mem_cons.mp hmem with h | h
    · subst h
      cases v with
      | null => exact absurd hv (by simp [JSONValue.notString])
      | string s => exact absurd hv (by simp [JSONValue.notString])
      | bool b => rfl
      | number l => rfl
      | compound => rfl
    · rcases m with ⟨_ | g, _ | _ | _ | _ | _⟩ <;> simp only [decodeMembers] <;> exact ih h _

/-- C9 fails as stated: with the query `uri=/blog/1`, the body with member
`"uri": 5` is answered 400 `Invalid JSON` and nothing is stored, while the body
that differs only in having `"uri": "5"` is accepted and stored. -/
theorem C9_counterexample :
    handlePostComment [] false 7
        (decodeCommentRequest (JSONBody.object
          [(some RequestField.uri, JSONValue.number (ascii "5")),
           (some RequestField.nickname, JSONValue.string (ascii "a")),
           (some RequestField.email, JSONValue.string (ascii "a@x.com")),
           (some RequestField.content, JSONValue.string (ascii "hi"))]))
        { uri := ascii "/blog/1", uri_encoded := [], page := [], page_size := [] } =
      ({ status := 400, body := Body.error "Invalid JSON" }, []) ∧
    handlePostComment [] false 7
        (decodeCommentRequest (JSONBody.object
          [(some RequestField.uri, JSONValue.string (ascii "5")),
           (some RequestField.nickname, JSONValue.string (ascii "a")),
           (some RequestField.email, JSONValue.string (ascii "a@x.com")),
           (some RequestField.content, JSONValue.string (ascii "hi"))]))
        { uri := ascii "/blog/1", uri_encoded := [], page := [], page_size := [] } =
      ({ status := 201, body := Body.comment (commentAt 7) }, [commentAt 7]) := by
  decide

/-- C9, amended: for bodies that decode, the `uri` and `uri_encoded` of the
body never influence the result: two bodies that decode to requests with the
same nickname, email, title and content give the same response and the same
table for every query.  With query `uri = Y` non-empty and no query
`uri_encoded`, the stored row has `uri = Y` and `uri_encoded = EncodeHex Y`
whatever the body says; with neither query parameter the submission is
rejected whatever the body says.  A body whose `uri` or `uri_encoded` member
(or any other member naming a field) is neither a string nor `null` does not
decode and is answered 400 `Invalid JSON` with nothing stored. -/
theorem C9_query_overrides_body (rows : List Comment) (createErr : Bool) (now : Int)
    (q : Query) (b1 b2 : JSONBody) (r1 r2 : CommentRequest)
    (h1 : decodeCommentRequest b1 = some r1) (h2 : decodeCommentRequest b2 = some r2)
    (hn : r1.Nickname = r2.Nickname) (he : r1.Email = r2.Email)
    (ht : r1.Title = r2.Title) (hc : r1.Content = r2.Content) :
    handlePostComment rows createErr now (decodeCommentRequest b1) q =
      handlePostComment rows createErr now (decodeCommentRequest b2) q ∧
    (∀ u e : GoString,
      handlePostComment rows createErr now (some { r1 with URI := u, URIEncoded := e }) q =
        handlePostComment rows createErr now (decodeCommentRequest b1) q) ∧
    (q.uri ≠ [] → q.uri_encoded = [] → r1.Nickname ≠ [] → r1.Email ≠ [] →
      r1.Content ≠ [] →
      handlePostComment rows false now (decodeCommentRequest b1) q =
        ({ status := 201,
           body := Body.comment
             { URI := q.uri, URIEncoded := EncodeHex q.uri, Nickname := r1.Nickname,
               Email := r1.Email, Title := r1.Title, Content := r1.Content,
               InsertedAt := now } },
         rows ++ [{ URI := q.uri, URIEncoded := EncodeHex q.uri, Nickname := r1.Nickname,
                    Email := r1.Email, Title := r1.Title, Content := r1.Content,
                    InsertedAt := now }])) ∧
    (q.uri = [] → q.uri_encoded = [] →
      handlePostComment rows createErr now (decodeCommentRequest b1) q =
        ({ status := 400, body := Body.error "uri or uri_encoded is required" }, rows)) ∧
    (∀ (members : List (Option RequestField × JSONValue)) (f : RequestField) (v : JSONValue),
      v.notString → (some f, v) ∈ members →
      handlePostComment rows createErr now (decodeCommentRequest (JSONBody.object members)) q =
        ({ status := 400, body := Body.error "Invalid JSON" }, rows)) := by
  refine ⟨?_, ?_, ?_, ?_, ?_⟩
  · rw [h1, h2]
    simp only [handlePostComment, hn, he, ht, hc]
  · intro u e
    rw [h1]
    rfl
  · intro hu hen hnn hne hnc
    rw [h1, handlePostComment_accept rows now r1 q (fun h => hu h.1) hnn hne hnc]
    have hraw : GetURI q.uri q.uri_encoded false = q.uri := by simp [GetURI, hu]
    have henc : GetURI q.uri q.uri_encoded true = EncodeHex q.uri := by simp [GetURI, hen]
    rw [hraw, henc]
  · intro hu hen
    rw [h1]
    simp [handlePostComment, hu, hen]
  · intro members f v hv hmem
    have hd : decodeCommentRequest (JSONBody.object members) = none :=
      decodeMembers_type_error members f v hv hmem _
    rw [hd]
    rfl

/-- Witness of the amended C9: body `uri_encoded = "X"` against a body without
it, query `uri = "Y"`. -/
theorem C9_query_overrides_body_witness :
    handlePostComment [] false 7
        (decodeCommentRequest (JSONBody.object
          [(some RequestField.uri_encoded, JSONValue.string (ascii "X")),
           (some RequestField.nickname, JSONValue.string (ascii "a")),
           (some RequestField.email, JSONValue.string (ascii "a@x.com")),
           (some RequestField.content, JSONValue.string (ascii "hi"))]))
        { uri := ascii "Y", uri_encoded := [], page := [], page_size := [] } =
      ({ status := 201,
         body := Body.comment
           { URI := ascii "Y", URIEncoded := EncodeHex (ascii "Y"), Nickname := ascii "a",
             Email := ascii "a@x.com", Title := [], Content := ascii "hi", InsertedAt := 7 } },
       [] ++ [{ URI := ascii "Y", URIEncoded := EncodeHex (ascii "Y"), Nickname := ascii "a",
                Email := ascii "a@x.com", Title := [], Content := ascii "hi",
                InsertedAt := 7 }]) :=
  (C9_query_overrides_body [] false 7
      { uri := ascii "Y", uri_encoded := [], page := [], page_size := [] }
      (JSONBody.object
        [(some RequestField.uri_encoded, JSONValue.string (ascii "X")),
         (some RequestField.nickname, JSONValue.string (ascii "a")),
         (some RequestField.email, JSONValue.string (ascii "a@x.com")),
         (some RequestField.content, JSONValue.string (ascii "hi"))])
      (JSONBody.object
        [(some RequestField.nickname, JSONValue.string (ascii "a")),
         (some RequestField.email, JSONValue.string (ascii "a@x.com")),
         (some RequestField.content, JSONValue.string (ascii "hi"))])
      { URI := [], URIEncoded := ascii "X", Nickname := ascii "a", Email := ascii "a@x.com",
        Title := [], Content := ascii "hi" }
      { URI := [], URIEncoded := [], Nickname := ascii "a", Email := ascii "a@x.com",
        Title := [], Content := ascii "hi" }
      (by decide) (by decide) rfl rfl rfl rfl).2.2.1
    (by decide) rfl (by decide) (by decide) (by decide)

/-! ## Canonical tokens -/

set_option maxRecDepth 1000000 in
theorem hextable_lower : ∀ v : Byte,
    isLowerHexDigit (hextable.getD (v.val >>> 4) 0) ∧
    isLowerHexDigit (hextable.getD (v.val &&& 0x0f) 0) := by
  decide

set_option maxRecDepth 1000000 in
theorem hextable_reverse : ∀ c : Byte, isLowerHexDigit c →
    reverseHexTable c ≤ 0x0f ∧ hextable.getD (reverseHexTable c) 0 = c := by
  decide

set_option maxRecDepth 1000000 in
theorem nibbles_split : ∀ a b : Fin 16,
    ((Fin.ofNat ((a.val <<< 4) ||| b.val) : Byte).val >>> 4 = a.val) ∧
    ((Fin.ofNat ((a.val <<< 4) ||| b.val) : Byte).val &&& 0x0f = b.val) := by
  decide

theorem hexEncode_canonical (s : List Byte) : canonicalHex (hexEncode s) := by
  induction s with
  | nil => exact ⟨rfl, by simp [hexEncode]⟩
  | cons v rest ih =>
    obtain ⟨h1, h2⟩ := hextable_lower v
    refine ⟨?_, ?_⟩
    · have := ih.1
      simp only [hexEncode, List.length_cons]
      omega
    · intro c hc
      simp only [hexEncode, List.mem_cons] at hc
      rcases hc with rfl | rfl | hc
      · exact h1
      · exact h2
      · exact ih.2 c hc

theorem hexEncode_hexDecode (m : List Byte) (h : canonicalHex m) :
    (hexDecode m).2 = none ∧ hexEncode (hexDecode m).1 = m := by
  induction m using pair_induction with
  | h0 => exact ⟨rfl, rfl⟩
  | h1 p => exact absurd h.1 (by simp)
  | h2 p q rest ih =>
    have hrest : canonicalHex rest := by
      refine ⟨?_, fun c hc => h.2 c (by simp [hc])⟩
      have := h.1
      simp only [List.length_cons] at this
      omega
    obtain ⟨ih1, ih2⟩ := ih hrest
    obtain ⟨hp1, hp2⟩ := hextable_reverse p (h.2 p (by simp))
    obtain ⟨hq1, hq2⟩ := hextable_reverse q (h.2 q (by simp))
    obtain ⟨hs1, hs2⟩ := nibbles_split ⟨reverseHexTable p, by omega⟩ ⟨reverseHexTable q, by omega⟩
    simp only at hs1 hs2
    simp only [hexDecode]
    rw [if_neg (by omega), if_neg (by omega)]
    refine ⟨ih1, ?_⟩
    simp only [hexEncode, hs1, hs2, hp2, hq2, ih2]

theorem hexDecode_ne_nil (m : List Byte) (h : ¬ malformed m) (hne : m ≠ []) :
    (hexDecode m).1 ≠ [] := by
  match m, hne with
  | [p], _ => exact absurd (Or.inl rfl) h
  | p :: q :: rest, _ =>
    have hp : isHexDigit p := by
      by_contra hp
      exact h (Or.inr ⟨p, by simp, hp⟩)
    have hq : isHexDigit q := by
      by_contra hq
      exact h (Or.inr ⟨q, by simp, hq⟩)
    have hp' := (reverseHexTable_le_iff p).mpr hp
    have hq' := (reverseHexTable_le_iff q).mpr hq
    simp only [hexDecode]
    rw [if_neg (by omega), if_neg (by omega)]
    simp

theorem canonicalHex_not_malformed (m : List Byte) (h : canonicalHex m) : ¬ malformed m := by
  rw [← hexDecode_error_iff]
  simp [(hexEncode_hexDecode m h).1]

theorem EncodeHex_ne_nil (s : GoString) (h : s ≠ []) : EncodeHex s ≠ [] := by
  cases s with
  | nil => exact absurd rfl h
  | cons v rest => simp [EncodeHex, hexEncode]

theorem GetURI_raw_eq_nil_iff (uri enc : GoString) (h : ¬ (uri = [] ∧ enc = [])) :
    GetURI uri enc false = [] ↔ (uri = [] ∧ malformed enc) := by
  by_cases hu : uri = []
  · subst hu
    have he : enc ≠ [] := fun he => h ⟨rfl, he⟩
    rw [GetURI_decode]
    constructor
    · intro hd
      refine ⟨rfl, ?_⟩
      by_contra hm
      have hok : (DecodeHex enc).2 = none := by
        by_contra hne
        exact hm ((DecodeHex_error_iff enc).mp hne)
      rw [DecodeHex_fst_of_ok enc hok] at hd
      exact hexDecode_ne_nil enc hm he hd
    · intro hm
      exact DecodeHex_fst_of_error enc ((DecodeHex_error_iff enc).mpr hm.2)
  · simp [GetURI, hu]

/-- C6 fails as stated: the query `uri_encoded=zz` passes validation and the
row that is stored has an empty `uri`. -/
theorem C6_counterexample :
    handlePostComment [] false 7
        (some { URI := [], URIEncoded := [], Nickname := ascii "a", Email := ascii "a@x.com",
                Title := [], Content := ascii "hi" })
        { uri := [], uri_encoded := ascii "zz", page := [], page_size := [] } =
      ({ status := 201,
         body := Body.comment
           { URI := [], URIEncoded := ascii "zz", Nickname := ascii "a",
             Email := ascii "a@x.com", Title := [], Content := ascii "hi", InsertedAt := 7 } },
       [{ URI := [], URIEncoded := ascii "zz", Nickname := ascii "a",
          Email := ascii "a@x.com", Title := [], Content := ascii "hi", InsertedAt := 7 }]) := by
  decide

/-- C6, amended: for a submission that passes validation the stored row has a
non-empty `uri_encoded`, and its `uri` is empty exactly when the query has no
`uri` and a malformed `uri_encoded`. -/
theorem C6_persisted_forms (rows : List Comment) (now : Int) (req : CommentRequest)
    (q : Query) (hq : ¬ (q.uri = [] ∧ q.uri_encoded = [])) (hn : req.Nickname ≠ [])
    (he : req.Email ≠ []) (hc : req.Content ≠ []) :
    ∃ c : Comment,
      handlePostComment rows false now (some req) q =
        ({ status := 201, body := Body.comment c }, rows ++ [c]) ∧
      c.URIEncoded ≠ [] ∧
      (c.URI = [] ↔ (q.uri = [] ∧ malformed q.uri_encoded)) := by
  refine ⟨_, handlePostComment_accept rows now req q hq hn he hc, ?_, ?_⟩
  · show GetURI q.uri q.uri_encoded true ≠ []
    by_cases hen : q.uri_encoded = []
    · have hu : q.uri ≠ [] := fun hu => hq ⟨hu, hen⟩
      simpa [GetURI, hen] using EncodeHex_ne_nil q.uri hu
    · simp [GetURI, hen]
  · exact GetURI_raw_eq_nil_iff q.uri q.uri_encoded hq

/-- Witness of the amended C6: the submission for `/blog/1` of the spec. -/
theorem C6_persisted_forms_witness :
    ∃ c : Comment,
      handlePostComment [] false 7
          (some { URI := [], URIEncoded := [], Nickname := ascii "a",
                  Email := ascii "a@x.com", Title := [], Content := ascii "hi" })
          { uri := ascii "/blog/1", uri_encoded := [], page := [], page_size := [] } =
        ({ status := 201, body := Body.comment c }, [] ++ [c]) ∧
      c.URIEncoded ≠ [] ∧
      (c.URI = [] ↔ ((ascii "/blog/1" : GoString) = [] ∧ malformed [])) :=
  C6_persisted_forms [] 7
    { URI := [], URIEncoded := [], Nickname := ascii "a", Email := ascii "a@x.com",
      Title := [], Content := ascii "hi" }
    { uri := ascii "/blog/1", uri_encoded := [], page := [], page_size := [] }
    (by decide) (by decide) (by decide) (by decide)

theorem EncodeHex_DecodeHex_iff (enc : GoString) :
    enc = EncodeHex (DecodeHex enc).1 ↔ canonicalHex enc := by
  constructor
  · intro h
    rw [h]
    exact hexEncode_canonical _
  · intro h
    obtain ⟨h1, h2⟩ := hexEncode_hexDecode enc h
    have hok : (DecodeHex enc).2 = none := by rw [DecodeHex_snd]; exact h1
    rw [DecodeHex_fst_of_ok enc hok]
    exact h2.symm

/-- C7 fails as stated: the query `uri_encoded=2F` passes validation and is
stored with `uri = "/"` and `uri_encoded = "2F"`, while `EncodeHex "/"` is `2f`. -/
theorem C7_counterexample :
    handlePostComment [] false 7
        (some { URI := [], URIEncoded := [], Nickname := ascii "a", Email := ascii "a@x.com",
                Title := [], Content := ascii "hi" })
        { uri := [], uri_encoded := ascii "2F", page := [], page_size := [] } =
      ({ status := 201,
         body := Body.comment
           { URI := ascii "/", URIEncoded := ascii "2F", Nickname := ascii "a",
             Email := ascii "a@x.com", Title := [], Content := ascii "hi", InsertedAt := 7 } },
       [{ URI := ascii "/", URIEncoded := ascii "2F", Nickname := ascii "a",
          Email := ascii "a@x.com", Title := [], Content := ascii "hi", InsertedAt := 7 }]) ∧
    EncodeHex (ascii "/") = ascii "2f" ∧ ascii "2F" ≠ EncodeHex (ascii "/") := by
  decide

/-- C7, amended: for a submission that passes validation, when the query
supplies only `uri`, the stored `uri` is that value and the stored
`uri_encoded` is its `EncodeHex`; when it supplies only `uri_encoded`, that
token is stored verbatim, the stored `uri` is what `DecodeHex` returns for it,
and the stored `uri_encoded` equals `EncodeHex` of the stored `uri` exactly
when the token is canonical (even length, digits `0-9`, `a-f`); when it
supplies both, both are stored verbatim, and the equality holds exactly when
the supplied `uri_encoded` is `EncodeHex` of the supplied `uri`.  Hence for a
page `T` the stored pair is `(T, EncodeHex T)` whether the caller supplies
`T`, `EncodeHex T`, or both. -/
theorem C7_encoded_of_raw (rows : List Comment) (now : Int) (req : CommentRequest)
    (q : Query) (hq : ¬ (q.uri = [] ∧ q.uri_encoded = [])) (hn : req.Nickname ≠ [])
    (he : req.Email ≠ []) (hc : req.Content ≠ []) :
    ∃ c : Comment,
      handlePostComment rows false now (some req) q =
        ({ status := 201, body := Body.comment c }, rows ++ [c]) ∧
      (q.uri_encoded = [] → c.URI = q.uri ∧ c.URIEncoded = EncodeHex c.URI) ∧
      (q.uri = [] →
        c.URI = (DecodeHex q.uri_encoded).1 ∧ c.URIEncoded = q.uri_encoded ∧
        (c.URIEncoded = EncodeHex c.URI ↔ canonicalHex q.uri_encoded)) ∧
      (q.uri ≠ [] → q.uri_encoded ≠ [] →
        c.URI = q.uri ∧ c.URIEncoded = q.uri_encoded ∧
        (c.URIEncoded = EncodeHex c.URI ↔ q.uri_encoded = EncodeHex q.uri)) ∧
      (∀ T : GoString, T ≠ [] →
        (q.uri = T ∧ q.uri_encoded = []) ∨ (q.uri = [] ∧ q.uri_encoded = EncodeHex T) ∨
          (q.uri = T ∧ q.uri_encoded = EncodeHex T) →
        c.URI = T ∧ c.URIEncoded = EncodeHex T) := by
  refine ⟨_, handlePostComment_accept rows now req q hq hn he hc, ?_, ?_, ?_, ?_⟩
  · intro hen
    have hu : q.uri ≠ [] := fun hu => hq ⟨hu, hen⟩
    simp [GetURI, hen, hu]
  · intro hu
    have hen : q.uri_encoded ≠ [] := fun hen => hq ⟨hu, hen⟩
    have hraw : GetURI q.uri q.uri_encoded false = (DecodeHex q.uri_encoded).1 := by
      rw [hu, GetURI_decode]
    have henc : GetURI q.uri q.uri_encoded true = q.uri_encoded := by
      simp [GetURI, hen]
    refine ⟨hraw, henc, ?_⟩
    show GetURI q.uri q.uri_encoded true = EncodeHex (GetURI q.uri q.uri_encoded false) ↔ _
    rw [hraw, henc]
    exact EncodeHex_DecodeHex_iff q.uri_encoded
  · intro hu hen
    have hraw : GetURI q.uri q.uri_encoded false = q.uri := by
      simp [GetURI, hu]
    have henc : GetURI q.uri q.uri_encoded true = q.uri_encoded := by
      simp [GetURI, hen]
    refine ⟨hraw, henc, ?_⟩
    show GetURI q.uri q.uri_encoded true = EncodeHex (GetURI q.uri q.uri_encoded false) ↔ _
    rw [hraw, henc]
  · intro T hT hcase
    show GetURI q.uri q.uri_encoded false = T ∧ GetURI q.uri q.uri_encoded true = EncodeHex T
    have hE := EncodeHex_ne_nil T hT
    rcases hcase with ⟨h1, h2⟩ | ⟨h1, h2⟩ | ⟨h1, h2⟩
    · rw [h1, h2]; simp [GetURI, hT]
    · rw [h1, h2, GetURI_decode, DecodeHex_EncodeHex]; simp [GetURI, hE]
    · rw [h1, h2]; simp [GetURI, hT, hE]

/-- Witness of the amended C7: the page `/blog/1` supplied in encoded form only. -/
theorem C7_encoded_of_raw_witness :
    ∃ c : Comment,
      handlePostComment [] false 7
          (some { URI := [], URIEncoded := [], Nickname := ascii "a",
                  Email := ascii "a@x.com", Title := [], Content := ascii "hi" })
          { uri := [], uri_encoded := ascii "2f626c6f672f31", page := [], page_size := [] } =
        ({ status := 201, body := Body.comment c }, [] ++ [c]) ∧
      c.URI = ascii "/blog/1" ∧ c.URIEncoded = EncodeHex (ascii "/blog/1") :=
  have h := C7_encoded_of_raw [] 7
    { URI := [], URIEncoded := [], Nickname := ascii "a", Email := ascii "a@x.com",
      Title := [], Content := ascii "hi" }
    { uri := [], uri_encoded := ascii "2f626c6f672f31", page := [], page_size := [] }
    (by decide) (by decide) (by decide) (by decide)
  h.elim fun c hc => ⟨c, hc.1, hc.2.2.2.2 (ascii "/blog/1") (by decide) (Or.inr (Or.inl (by decide)))⟩

/-! ## Read path: pagination parameters -/

theorem atoiFastLoop_bound (body : List Byte) : ∀ (n r : Int), 0 ≤ n →
    atoiFastLoop body n = some r → 0 ≤ r ∧ r < (n + 1) * 10 ^ body.length := by
  induction body with
  | nil =>
    intro n r hn h
    simp only [atoiFastLoop, Option.some.injEq] at h
    subst h
    simp [hn]
  | cons ch rest ih =>
    intro n r hn h
    simp only [atoiFastLoop] at h
    split at h
    · exact absurd h (by simp)
    · rename_i hd
      have hd' : (((ch.val + 256 - 48) % 256 : Nat) : Int) ≤ 9 := by omega
      have hd0 : (0 : Int) ≤ (((ch.val + 256 - 48) % 256 : Nat) : Int) := by omega
      obtain ⟨h0, h1⟩ := ih _ r (by omega) h
      refine ⟨h0, lt_of_lt_of_le h1 ?_⟩
      have hpow : (0 : Int) ≤ 10 ^ rest.length := by positivity
      rw [List.length_cons, pow_succ]
      nlinarith

theorem ParseInt_range (s : GoString) :
    -(2 : Int) ^ 63 ≤ (ParseInt s).1 ∧ (ParseInt s).1 ≤ 2 ^ 63 - 1 := by
  unfold ParseInt
  by_cases hs : s = []
  · rw [if_pos hs]; norm_num
  · rw [if_neg hs]
    dsimp only
    generalize ParseUint (if s.head? = some 43 ∨ s.head? = some 45 then s.tail else s) = r
    rcases r with ⟨un, _ | _ | _⟩
    · dsimp only
      by_cases h1 : ¬ s.head? = some 45 ∧ un ≥ 2 ^ 63
      · rw [if_pos h1]; norm_num
      · rw [if_neg h1]
        by_cases h2 : s.head? = some 45 ∧ un > 2 ^ 63
        · rw [if_pos h2]; norm_num
        · rw [if_neg h2]
          by_cases h3 : s.head? = some 45
          · have hu : un ≤ 2 ^ 63 := by
              by_contra hc
              exact h2 ⟨h3, by omega⟩
            rw [if_pos h3]; dsimp only; constructor <;> omega
          · have hu : un < 2 ^ 63 := by
              by_contra hc
              exact h1 ⟨h3, by omega⟩
            rw [if_neg h3]; dsimp only; constructor <;> omega
    · norm_num
    · dsimp only
      by_cases h1 : ¬ s.head? = some 45 ∧ un ≥ 2 ^ 63
      · rw [if_pos h1]; norm_num
      · rw [if_neg h1]
        by_cases h2 : s.head? = some 45 ∧ un > 2 ^ 63
        · rw [if_pos h2]; norm_num
        · rw [if_neg h2]
          by_cases h3 : s.head? = some 45
          · have hu : un ≤ 2 ^ 63 := by
              by_contra hc
              exact h2 ⟨h3, by omega⟩
            rw [if_pos h3]; dsimp only; constructor <;> omega
          · have hu : un < 2 ^ 63 := by
              by_contra hc
              exact h1 ⟨h3, by omega⟩
            rw [if_neg h3]; dsimp only; constructor <;> omega

theorem Atoi_range (s : GoString) :
    -(2 : Int) ^ 63 ≤ (Atoi s).1 ∧ (Atoi s).1 ≤ 2 ^ 63 - 1 := by
  unfold Atoi
  by_cases hlen : 0 < s.length ∧ s.length < 19
  · rw [if_pos hlen]
    dsimp only
    have hl : (if s.head? = some 45 ∨ s.head? = some 43 then s.tail else s).length ≤ 18 := by
      split
      · rw [List.length_tail]; omega
      · omega
    generalize (if s.head? = some 45 ∨ s.head? = some 43 then s.tail else s) = body at hl ⊢
    by_cases hsg : (s.head? = some 45 ∨ s.head? = some 43) ∧ body.length < 1
    · rw [if_pos hsg]; norm_num
    · rw [if_neg hsg]
      rcases hn : atoiFastLoop body 0 with _ | n
      · norm_num
      · obtain ⟨h0, h1⟩ := atoiFastLoop_bound body 0 n le_rfl hn
        have hp : (10 : Int) ^ body.length ≤ 10 ^ 18 := pow_le_pow_right₀ (by norm_num) hl
        simp only [zero_add, one_mul] at h1
        have h2 : n < 10 ^ 18 := lt_of_lt_of_le h1 hp
        norm_num at h2
        dsimp only
        by_cases h3 : s.head? = some 45
        · rw [if_pos h3]; constructor <;> omega
        · rw [if_neg h3]; constructor <;> omega
  · rw [if_neg hlen]
    exact ParseInt_range s

/-- C5: for every value `p` parsed from `page` and `s` parsed from `page_size`
(an absent parameter parses to 0), the normalised page is 1 if `p < 1` and `p`
otherwise, the normalised page size is `s` if `1 ≤ s ≤ 100` and 10 otherwise;
so page is at least 1 and page size is between 1 and 100, and these values
are the limit sent to the store and the `page` and `page_size` of the response. -/
theorem C5_pagination_defaults (p s : Int) (rows : List Comment) (q : Query) :
    handleGetComments_page p = (if p < 1 then 1 else p) ∧
    handleGetComments_pageSize s = (if 1 ≤ s ∧ s ≤ 100 then s else 10) ∧
    1 ≤ handleGetComments_page p ∧
    1 ≤ handleGetComments_pageSize s ∧ handleGetComments_pageSize s ≤ 100 ∧
    handleGetComments_pageSize 101 = 10 ∧ handleGetComments_pageSize 100 = 100 ∧
    handleGetComments_pageSize 50 = 50 ∧ handleGetComments_pageSize 0 = 10 ∧
    handleGetComments_page 0 = 1 ∧ handleGetComments_page (-1) = 1 ∧
    Atoi [] = (0, some NumError.ErrSyntax) ∧
    (handleGetComments_query q).limit = handleGetComments_pageSize (Atoi q.page_size).1 ∧
    handleGetComments rows false q =
      { status := 200,
        body := Body.page
          { Comments := Find rows (handleGetComments_query q),
            Page := handleGetComments_page (Atoi q.page).1,
            PageSize := handleGetComments_pageSize (Atoi q.page_size).1 } } ∧
    (∃ cs, handleGetComments rows false { q with page := [], page_size := [] } =
      { status := 200, body := Body.page { Comments := cs, Page := 1, PageSize := 10 } }) ∧
    (∃ cs, handleGetComments rows false
        { q with page := ascii "-1", page_size := ascii "101" } =
      { status := 200, body := Body.page { Comments := cs, Page := 1, PageSize := 10 } }) ∧
    (∃ cs, handleGetComments rows false
        { q with page := ascii "0", page_size := ascii "0" } =
      { status := 200, body := Body.page { Comments := cs, Page := 1, PageSize := 10 } }) ∧
    (∃ cs, handleGetComments rows false
        { q with page := ascii "3", page_size := ascii "100" } =
      { status := 200, body := Body.page { Comments := cs, Page := 3, PageSize := 100 } }) ∧
    (∃ cs, handleGetComments rows false
        { q with page := ascii "2", page_size := ascii "50" } =
      { status := 200, body := Body.page { Comments := cs, Page := 2, PageSize := 50 } }) := by
  have h1 : Atoi [] = (0, some NumError.ErrSyntax) := by decide
  have h2 : Atoi (ascii "-1") = (-1, none) := by decide
  have h3 : Atoi (ascii "101") = (101, none) := by decide
  have h4 : Atoi (ascii "0") = (0, none) := by decide
  have h5 : Atoi (ascii "3") = (3, none) := by decide
  have h6 : Atoi (ascii "100") = (100, none) := by decide
  have h7 : Atoi (ascii "2") = (2, none) := by decide
  have h8 : Atoi (ascii "50") = (50, none) := by decide
  refine ⟨rfl, ?_, ?_, ?_, ?_, by decide, by decide, by decide, by decide, by decide,
    by decide, h1, rfl, rfl, ?_, ?_, ?_, ?_, ?_⟩
  · unfold handleGetComments_pageSize
    by_cases h : 1 ≤ s ∧ s ≤ 100
    · rw [if_pos h, if_neg (by omega)]
    · rw [if_neg h, if_pos (by omega)]
  · unfold handleGetComments_page; split <;> omega
  · unfold handleGetComments_pageSize; split <;> omega
  · unfold handleGetComments_pageSize; split <;> omega
  · exact ⟨_, by simp only [handleGetComments, h1]; rfl⟩
  · exact ⟨_, by simp only [handleGetComments, h2, h3]; rfl⟩
  · exact ⟨_, by simp only [handleGetComments, h4]; rfl⟩
  · exact ⟨_, by simp only [handleGetComments, h5, h6]; rfl⟩
  · exact ⟨_, by simp only [handleGetComments, h7, h8]; rfl⟩

theorem wrapInt64_of_range (x : Int) (h0 : -(2 : Int) ^ 63 ≤ x) (h1 : x ≤ 2 ^ 63 - 1) :
    wrapInt64 x = x := by
  unfold wrapInt64
  norm_num at h0 h1 ⊢
  omega

theorem wrapInt64_eq_iff (x : Int) : wrapInt64 x = x ↔ (-(2 : Int) ^ 63 ≤ x ∧ x ≤ 2 ^ 63 - 1) := by
  unfold wrapInt64
  norm_num
  omega

/-- C10 fails as stated: `page=4611686018427387905&page_size=2` gives page
`2^62 + 1` and page size 2, whose product `(page-1)*pageSize` is `2^63`, and
the offset sent to the store is `-2^63`. -/
theorem C10_counterexample :
    handleGetComments_page (Atoi (ascii "4611686018427387905")).1 = 4611686018427387905 ∧
    handleGetComments_pageSize (Atoi (ascii "2")).1 = 2 ∧
    ((4611686018427387905 : Int) - 1) * 2 = 9223372036854775808 ∧
    (handleGetComments_query
      { uri := ascii "/blog/1", uri_encoded := [], page := ascii "4611686018427387905",
        page_size := ascii "2" }).offset = -9223372036854775808 := by
  decide

/-- C10, amended: for a page `1 ≤ page ≤ 2^63 - 1` and a page size in `1..100`,
the offset computed in wrapping 64-bit arithmetic equals the product
`(page-1)*pageSize` exactly when that product is at most `2^63 - 1`; it is then
not negative; this is the case for every page up to 92233720368547759.  The
page and page size of every request are in these ranges. -/
theorem C10_offset_no_overflow (page pageSize : Int) (h1 : 1 ≤ page)
    (h2 : page ≤ 2 ^ 63 - 1) (h3 : 1 ≤ pageSize) (h4 : pageSize ≤ 100) :
    (handleGetComments_offset page pageSize = (page - 1) * pageSize ↔
      (page - 1) * pageSize ≤ 2 ^ 63 - 1) ∧
    ((page - 1) * pageSize ≤ 2 ^ 63 - 1 → 0 ≤ handleGetComments_offset page pageSize) ∧
    (page ≤ 92233720368547759 →
      handleGetComments_offset page pageSize = (page - 1) * pageSize) ∧
    (∀ q : Query,
      (handleGetComments_query q).offset =
        handleGetComments_offset (handleGetComments_page (Atoi q.page).1)
          (handleGetComments_pageSize (Atoi q.page_size).1) ∧
      1 ≤ handleGetComments_page (Atoi q.page).1 ∧
      handleGetComments_page (Atoi q.page).1 ≤ 2 ^ 63 - 1 ∧
      1 ≤ handleGetComments_pageSize (Atoi q.page_size).1 ∧
      handleGetComments_pageSize (Atoi q.page_size).1 ≤ 100) := by
  have hw : wrapInt64 (page - 1) = page - 1 :=
    wrapInt64_of_range _ (by norm_num; omega) (by omega)
  have hm : 0 ≤ (page - 1) * pageSize := mul_nonneg (by omega) (by omega)
  unfold handleGetComments_offset
  rw [hw]
  have hiff := wrapInt64_eq_iff ((page - 1) * pageSize)
  refine ⟨?_, ?_, ?_, ?_⟩
  · rw [hiff]
    constructor
    · exact fun h => h.2
    · exact fun h => ⟨le_trans (by norm_num) hm, h⟩
  · intro h
    rw [hiff.mpr ⟨le_trans (by norm_num) hm, h⟩]
    exact hm
  · intro h
    apply hiff.mpr
    refine ⟨le_trans (by norm_num) hm, ?_⟩
    have : (page - 1) * pageSize ≤ 92233720368547758 * 100 :=
      mul_le_mul (by omega) h4 (by omega) (by norm_num)
    norm_num at this ⊢
    omega
  · intro q
    have hr := (Atoi_range q.page).2
    refine ⟨rfl, ?_, ?_, ?_, ?_⟩
    · unfold handleGetComments_page; split <;> omega
    · unfold handleGetComments_page; split
      · norm_num
      · exact hr
    · unfold handleGetComments_pageSize; split <;> omega
    · unfold handleGetComments_pageSize; split <;> omega

/-- Witness of the amended C10: page 3 with page size 10 skips 20 rows. -/
theorem C10_offset_no_overflow_witness :
    handleGetComments_offset 3 10 = (3 - 1) * 10 ∧ 0 ≤ handleGetComments_offset 3 10 :=
  have h := C10_offset_no_overflow 3 10 (by decide) (by decide) (by decide) (by decide)
  ⟨h.2.2.1 (by decide), h.2.1 (by decide)⟩

/-! ## Read path: pages -/

theorem handleGetComments_offset_eq (page pageSize : Int) (h1 : 1 ≤ page) (h3 : 1 ≤ pageSize)
    (hb : (page - 1) * pageSize ≤ 2 ^ 63 - 1) :
    handleGetComments_offset page pageSize = (page - 1) * pageSize := by
  have hm : 0 ≤ (page - 1) * pageSize := mul_nonneg (by omega) (by omega)
  have hle : page - 1 ≤ (page - 1) * pageSize := by nlinarith
  unfold handleGetComments_offset
  rw [wrapInt64_of_range (page - 1) (by norm_num; omega) (by omega)]
  exact wrapInt64_of_range _ (le_trans (by norm_num) hm) hb

theorem newestFirst_perm (rows : List Comment) (k : GoString) :
    (newestFirst rows k).Perm (rows.filter (fun c => c.URIEncoded = k)) :=
  List.perm_insertionSort _ _

theorem newestFirst_strict (rows : List Comment) (k : GoString)
    (hd : rows.Pairwise (fun a b => a.InsertedAt ≠ b.InsertedAt)) :
    (newestFirst rows k).Pairwise (fun a b => a.InsertedAt > b.InsertedAt) := by
  have hs : (newestFirst rows k).Pairwise (fun a b => a.InsertedAt ≥ b.InsertedAt) :=
    List.sorted_insertionSort _ _
  have hf : (rows.filter (fun c => c.URIEncoded = k)).Pairwise
      (fun a b => a.InsertedAt ≠ b.InsertedAt) := hd.sublist (List.filter_sublist rows)
  have hne : (newestFirst rows k).Pairwise (fun a b => a.InsertedAt ≠ b.InsertedAt) :=
    ((newestFirst_perm rows k).pairwise_iff (fun {a b} h => Ne.symm h)).mpr hf
  exact (hs.and hne).imp (fun h => lt_of_le_of_ne h.1 (Ne.symm h.2))

theorem newestFirst_unique (rows : List Comment) (k : GoString) (l : List Comment)
    (hd : rows.Pairwise (fun a b => a.InsertedAt ≠ b.InsertedAt))
    (hp : l.Perm (rows.filter (fun c => c.URIEncoded = k)))
    (hs : l.Pairwise (fun a b => a.InsertedAt > b.InsertedAt)) :
    newestFirst rows k = l :=
  List.eq_of_perm_of_sorted ((newestFirst_perm rows k).trans hp.symm)
    (newestFirst_strict rows k hd) hs

theorem Find_page (rows : List Comment) (k : GoString) (n p : Int)
    (hn1 : 1 ≤ n) (hp : 1 ≤ p) (hb : (p - 1) * n ≤ 2 ^ 63 - 1) :
    Find rows { key := k, limit := n, offset := handleGetComments_offset p n } =
      ((newestFirst rows k).drop ((p - 1) * n).toNat).take n.toNat := by
  have hm : 0 ≤ (p - 1) * n := mul_nonneg (by omega) (by omega)
  rw [handleGetComments_offset_eq p n hp hn1 hb]
  unfold Find newestFirst
  dsimp only
  rw [if_pos (by omega : n ≥ 0)]
  by_cases h0 : (p - 1) * n > 0
  · rw [if_pos h0]
  · rw [if_neg h0]
    have : (p - 1) * n = 0 := by omega
    rw [this]
    rfl

theorem Find_pages_concat (rows : List Comment) (k : GoString) (n : Int) (hn1 : 1 ≤ n) :
    ∀ m : Nat, (m : Int) * n ≤ 2 ^ 63 - 1 →
      (List.range m).flatMap (fun j =>
        Find rows { key := k, limit := n, offset := handleGetComments_offset ((j : Int) + 1) n })
      = (newestFirst rows k).take (m * n.toNat) := by
  intro m
  induction m with
  | zero => intro _; simp
  | succ m ih =>
    intro hb
    have hb' : (m : Int) * n ≤ 2 ^ 63 - 1 := by
      push_cast at hb
      nlinarith
    have hpage := Find_page rows k n ((m : Int) + 1) hn1 (by omega) (by simpa using hb')
    have hnat : (((m : Int) + 1 - 1) * n).toNat = m * n.toNat := by
      have : ((m : Int) + 1 - 1) * n = ((m * n.toNat : Nat) : Int) := by
        push_cast
        rw [Int.toNat_of_nonneg (by omega)]
        ring
      rw [this, Int.toNat_ofNat]
    rw [List.range_succ, List.flatMap_append, ih hb']
    simp only [List.flatMap_cons, List.flatMap_nil, List.append_nil]
    rw [hpage, hnat, Nat.succ_mul, List.take_add]

/-- C8 fails as stated: with one comment stored for `/blog/1`, the request
`page=4611686018427387905&page_size=4` returns that comment, while dropping
the first `(page-1)*pageSize = 2^64` comments leaves none. -/
theorem C8_counterexample :
    handleGetComments [commentAt 1] false
        { uri := ascii "/blog/1", uri_encoded := [], page := ascii "4611686018427387905",
          page_size := ascii "4" } =
      { status := 200,
        body := Body.page
          { Comments := [commentAt 1], Page := 4611686018427387905, PageSize := 4 } } ∧
    ((newestFirst [commentAt 1] (EncodeHex (ascii "/blog/1"))).drop
      (((4611686018427387905 : Int) - 1) * 4).toNat).take 4 = [] := by
  decide

/-- C8, amended: over a table with pairwise distinct `inserted_at`, for a key
`k`, a page size `n ≥ 1` and a page `p ≥ 1` whose offset `(p-1)*n` does not
exceed `2^63 - 1`, page `p` of the read path is the comments with
`uri_encoded = k`, newest first, with the first `(p-1)*n` dropped and at most
`n` kept; each page has at most `n` comments; the newest-first list is a
permutation of the matching comments in strictly descending `inserted_at`;
pages `1..m` concatenated are its first `m*n` elements, hence all of it once
`m*n` reaches its length; three comments at `t1 < t2 < t3` with `n = 2` give
`[t3, t2]` on page 1 and `[t1]` on page 2. -/
theorem C8_read_path_pages (rows : List Comment) (k : GoString) (n p : Int)
    (hd : rows.Pairwise (fun a b => a.InsertedAt ≠ b.InsertedAt))
    (hn1 : 1 ≤ n) (hp : 1 ≤ p) (hb : (p - 1) * n ≤ 2 ^ 63 - 1) :
    Find rows { key := k, limit := n, offset := handleGetComments_offset p n } =
      ((newestFirst rows k).drop ((p - 1) * n).toNat).take n.toNat ∧
    (Find rows { key := k, limit := n, offset := handleGetComments_offset p n }).length
      ≤ n.toNat ∧
    (newestFirst rows k).Perm (rows.filter (fun c => c.URIEncoded = k)) ∧
    (newestFirst rows k).Pairwise (fun a b => a.InsertedAt > b.InsertedAt) ∧
    (∀ m : Nat, (m : Int) * n ≤ 2 ^ 63 - 1 →
      (List.range m).flatMap (fun j =>
        Find rows { key := k, limit := n, offset := handleGetComments_offset ((j : Int) + 1) n })
      = (newestFirst rows k).take (m * n.toNat)) ∧
    (∀ m : Nat, (m : Int) * n ≤ 2 ^ 63 - 1 → (newestFirst rows k).length ≤ m * n.toNat →
      (List.range m).flatMap (fun j =>
        Find rows { key := k, limit := n, offset := handleGetComments_offset ((j : Int) + 1) n })
      = newestFirst rows k) ∧
    (∀ q : Query, GetURI q.uri q.uri_encoded true = k →
      handleGetComments_page (Atoi q.page).1 = p →
      handleGetComments_pageSize (Atoi q.page_size).1 = n →
      handleGetComments rows false q =
        { status := 200,
          body := Body.page
            { Comments := ((newestFirst rows k).drop ((p - 1) * n).toNat).take n.toNat,
              Page := p, PageSize := n } }) ∧
    (∀ c1 c2 c3 : Comment, c1.URIEncoded = k → c2.URIEncoded = k → c3.URIEncoded = k →
      c1.InsertedAt < c2.InsertedAt → c2.InsertedAt < c3.InsertedAt →
      rows.Perm [c1, c2, c3] →
      Find rows { key := k, limit := 2, offset := handleGetComments_offset 1 2 } = [c3, c2] ∧
      Find rows { key := k, limit := 2, offset := handleGetComments_offset 2 2 } = [c1]) := by
  have hpage := Find_page rows k n p hn1 hp hb
  refine ⟨hpage, ?_, newestFirst_perm rows k, newestFirst_strict rows k hd,
    Find_pages_concat rows k n hn1, ?_, ?_, ?_⟩
  · rw [hpage, List.length_take]
    exact Nat.min_le_left _ _
  · intro m hm hlen
    rw [Find_pages_concat rows k n hn1 m hm, List.take_of_length_le hlen]
  · intro q hk hpq hnq
    simp only [handleGetComments, handleGetComments_query, hk, hpq, hnq]
    simp [hpage]
  · intro c1 c2 c3 h1 h2 h3 h12 h23 hperm
    have hfilter : (rows.filter (fun c => c.URIEncoded = k)).Perm [c3, c2, c1] := by
      have hf := hperm.filter (fun c => decide (c.URIEncoded = k))
      have hall : [c1, c2, c3].filter (fun c => decide (c.URIEncoded = k)) = [c1, c2, c3] := by
        simp [h1, h2, h3]
      rw [hall] at hf
      exact hf.trans (List.reverse_perm [c1, c2, c3]).symm
    have hsorted : [c3, c2, c1].Pairwise (fun a b => a.InsertedAt > b.InsertedAt) := by
      simp only [List.pairwise_cons, List.mem_cons, List.mem_singleton, List.not_mem_nil,
        forall_eq_or_imp, forall_eq, List.Pairwise.nil, and_true, IsEmpty.forall_iff,
        implies_true]
      refine ⟨⟨h23, ?_⟩, h12⟩
      exact lt_trans h12 h23
    have hlist := newestFirst_unique rows k [c3, c2, c1] hd hfilter.symm hsorted
    rw [Find_page rows k 2 1 (by decide) (by decide) (by decide),
      Find_page rows k 2 2 (by decide) (by decide) (by decide), hlist]
    exact ⟨rfl, rfl⟩

/-- Witness of the amended C8: the comments of the spec's ordering example,
stored in the order `t1, t3, t2`. -/
theorem C8_read_path_pages_witness :
    Find [commentAt 1, commentAt 3, commentAt 2]
        { key := EncodeHex (ascii "/blog/1"), limit := 2,
          offset := handleGetComments_offset 1 2 } = [commentAt 3, commentAt 2] ∧
    Find [commentAt 1, commentAt 3, commentAt 2]
        { key := EncodeHex (ascii "/blog/1"), limit := 2,
          offset := handleGetComments_offset 2 2 } = [commentAt 1] :=
  (C8_read_path_pages [commentAt 1, commentAt 3, commentAt 2] (EncodeHex (ascii "/blog/1")) 2 1
      (by decide) (by decide) (by decide) (by decide)).2.2.2.2.2.2.2
    (commentAt 1) (commentAt 2) (commentAt 3) rfl rfl rfl (by decide) (by decide)
    ((List.Perm.swap (commentAt 2) (commentAt 3) []).cons (commentAt 1))

end Commenturi
